import Mathlib

/-!
Verification development for the run-monitor readiness analyzer
(`analyze_condition` in `src/app.py`).

The analyzer receives the raw record frame (columns Date, RHR, Distance,
RPE, Type) and today's resting heart rate.  It sorts by date, coerces the
numeric columns, computes rolling training-load and RHR-baseline columns,
and scores the last row with three additive penalty rules.

Modelling choices:
* dates are the parsed timestamps (integers), since `pd.to_datetime`
  only matters here through the induced order;
* numbers are exact rationals;
* an undefined (NaN) rolling statistic is `none`;
* the rolling standard deviation is carried as its square, the sample
  variance, because the code only tests the std for definedness and
  positivity and compares `z` against positive thresholds, and all of
  those are decided by the variance (lemma `zAbove_iff_sqrt` proves the
  equivalence with the square-root formula of the source);
* `pd.to_numeric` raising on a non-numeric value is `Except.error`.
-/

namespace RunMonitor

/-- A raw field value as read from the record store: either a numeric value
or a non-numeric text that `pd.to_numeric` cannot coerce. -/
inductive RawVal where
  | num (q : ℚ)
  | text (s : String)
deriving DecidableEq, Repr

/-- A raw record from the store: columns Date, RHR, Distance, RPE, Type. -/
structure RawEntry where
  date : ℕ
  rhr : RawVal
  distance : RawVal
  rpe : RawVal
  type : String
deriving DecidableEq, Repr

/-- A record after numeric coercion succeeded on all three numeric columns. -/
structure Entry where
  date : ℕ
  rhr : ℚ
  distance : ℚ
  rpe : ℚ
  type : String
deriving DecidableEq, Repr, Inhabited

/-- Models `pd.to_numeric` on one value: succeeds on numbers, raises on
non-numeric text. -/
def coerceVal : RawVal → Option ℚ
  | .num q => some q
  | .text _ => none

/-- Coerce the three numeric columns of one row (`pd.to_numeric` on the
Distance, RPE and RHR fields; source lines 85-87). -/
def coerceEntry (e : RawEntry) : Option Entry :=
  match coerceVal e.distance, coerceVal e.rpe, coerceVal e.rhr with
  | some d, some p, some h => some ⟨e.date, h, d, p, e.type⟩
  | _, _, _ => none

/-- The sort key of `sort_values('Date')`. -/
def dateLe (a b : RawEntry) : Prop := a.date ≤ b.date

instance : DecidableRel dateLe := fun a b => Nat.decLe a.date b.date

instance : IsTotal RawEntry dateLe := ⟨fun a b => Nat.le_total a.date b.date⟩

instance : IsTrans RawEntry dateLe := ⟨fun _ _ _ h1 h2 => Nat.le_trans h1 h2⟩

/-- Mean of a list of rationals (sum divided by count). -/
def mean (l : List ℚ) : ℚ := l.sum / l.length

/-- Sample variance with ddof = 1, the square of pandas `.std()`. -/
def svar (l : List ℚ) : ℚ :=
  ((l.map fun x => (x - mean l) ^ 2).sum) / ((l.length : ℚ) - 1)

/-- The trailing window of size `w` ending at position `i`: the entries
of `l` at positions `[i+1-w .. i]`. -/
def windowAt (l : List ℚ) (w i : ℕ) : List ℚ := (l.take (i + 1)).drop (i + 1 - w)

/-- Models `Series.rolling(w).mean()` at position `i` with pandas's default
`min_periods = w`: defined only when the window holds `w` points. -/
def rollingMean (w : ℕ) (l : List ℚ) (i : ℕ) : Option ℚ :=
  if w ≤ i + 1 then some (mean (windowAt l w i)) else none

/-- Models `Series.rolling(w).std()` at position `i` (default
`min_periods = w`), carried as its square, the sample variance. -/
def rollingVar (w : ℕ) (l : List ℚ) (i : ℕ) : Option ℚ :=
  if w ≤ i + 1 then some (svar (windowAt l w i)) else none

/-- Row-wise ACWR (source line 94): Acute/Chronic if Chronic > 0, else 0.
A NaN Chronic (`none`) fails the `> 0` test, giving 0.  Because the acute
window (7) is shorter than the chronic window (28), the acute mean is
always defined whenever the chronic mean is, so the `none`-acute branch
under a positive chronic mean is unreachable. -/
def acwrOf (ac ch : Option ℚ) : ℚ :=
  match ch with
  | some c =>
    if 0 < c then
      match ac with
      | some a => a / c
      | none => 0
    else 0
  | none => 0

/-- One row of the annotated frame: the entry plus the derived columns
Load, Acute, Chronic, ACWR, RHR_Mean and (squared) RHR_Std. -/
structure AnnRow where
  date : ℕ
  rhr : ℚ
  distance : ℚ
  rpe : ℚ
  type : String
  load : ℚ
  acute : Option ℚ
  chronic : Option ℚ
  acwr : ℚ
  rhrMean : Option ℚ
  rhrVar : Option ℚ
deriving DecidableEq, Repr, Inhabited

/-- The derived columns of the sorted log at position `i`
(source lines 89-97). -/
def annRow (es : List Entry) (i : ℕ) : AnnRow :=
  let e := es.getD i default
  let loads := es.map fun x => x.distance * x.rpe
  let rhrs := es.map fun x => x.rhr
  { date := e.date, rhr := e.rhr, distance := e.distance, rpe := e.rpe,
    type := e.type,
    load := e.distance * e.rpe,
    acute := rollingMean 7 loads i,
    chronic := rollingMean 28 loads i,
    acwr := acwrOf (rollingMean 7 loads i) (rollingMean 28 loads i),
    rhrMean := rollingMean 30 rhrs i,
    rhrVar := rollingVar 30 rhrs i }

/-- The annotated frame: every row of the sorted log with all derived
columns attached. -/
def annotate (es : List Entry) : List AnnRow :=
  (List.range es.length).map (annRow es)

/-- Decides `(today - m) / std > c` for a threshold `c > 0`, where
`std = sqrt v` and `v > 0`, without leaving ℚ: equivalent to
`today - m > 0 ∧ (today - m)^2 > c^2 * v`.  Faithfulness to the source
formula is proved in `zAbove_iff_sqrt`. -/
def zAbove (today m v c : ℚ) : Bool :=
  decide (0 < today - m ∧ c ^ 2 * v < (today - m) ^ 2)

/-- Rule 1 (source lines 104-111): one-sided RHR anomaly test on the last
row; returns the penalty and the warnings emitted. -/
def rhrRule (row : AnnRow) (today : ℚ) : ℤ × List String :=
  match row.rhrVar, row.rhrMean with
  | some v, some m =>
    if 0 < v then
      if zAbove today m v 2 then (40, ["⛔ 心拍異常 (+2σ): " ++ toString today])
      else if zAbove today m v 1 then (20, ["⚠️ 心拍高め (+1σ): " ++ toString today])
      else (0, [])
    else (0, [])
  | _, _ => (0, [])

/-- Format a rational to two decimal places (the f-string `.2f`). -/
def fmt2 (q : ℚ) : String :=
  let n : ℤ := Int.floor (q * 100 + 1 / 2)
  let sign := if n < 0 then "-" else ""
  let a := n.natAbs
  sign ++ toString (a / 100) ++ "." ++
    (if a % 100 < 10 then "0" else "") ++ toString (a % 100)

/-- Rule 2 (source lines 113-119): training-load-ratio risk on the last
row's ACWR. -/
def acwrRule (a : ℚ) : ℤ × List String :=
  if 3 / 2 < a then (30, ["⛔ 怪我リスク大 (ACWR " ++ fmt2 a ++ ")"])
  else if 13 / 10 < a then (10, ["⚠️ 急激な負荷増 (ACWR " ++ fmt2 a ++ ")"])
  else (0, [])

/-- Rule 3 (source lines 121-123): neural-recovery flag when the last
session was Anaerobic. -/
def cnsRule (t : String) : ℤ × List String :=
  if t = "Anaerobic" then (10, ["💡 CNS回復: 昨日は解糖系でした。ジョグ推奨。"])
  else (0, [])

/-- Status derivation from the final score (source lines 125-127). -/
def statusOf (score : ℤ) : String :=
  if score < 50 then "RED" else if score < 80 then "YELLOW" else "GREEN"

/-- The result quadruple: score, status, warnings, annotated log. -/
abbrev Result := ℤ × String × List String × List AnnRow

/-- The scoring pass over the sorted, coerced log (source lines 89-129):
compute the derived columns, evaluate the three penalty rules on the last
row, derive the status. -/
def scorePass (es : List Entry) (today_rhr : ℚ) : Result :=
  let ann := annotate es
  let last := ann.getLastD default
  let r1 := rhrRule last today_rhr
  let r2 := acwrRule last.acwr
  let r3 := cnsRule last.type
  let score := 100 - r1.1 - r2.1 - r3.1
  (score, statusOf score, r1.2 ++ r2.2 ++ r3.2, ann)

/-- Models `analyze_condition` (source lines 77-129).  The empty check
precedes everything; then the frame is sorted by date, the numeric columns
are coerced (`pd.to_numeric` raises on failure, modelled by
`Except.error`), and the scoring pass runs on the result. -/
def analyze_condition (df : List RawEntry) (today_rhr : ℚ) : Except String Result :=
  if df.isEmpty then
    .ok (100, "GREEN", ["データがありません"], [])
  else
    match (List.insertionSort dateLe df).mapM coerceEntry with
    | none => .error "to_numeric: unable to parse string"
    | some es => .ok (scorePass es today_rhr)

/-- Lift a well-formed numeric entry back to a raw record. -/
def liftEntry (e : Entry) : RawEntry :=
  ⟨e.date, .num e.rhr, .num e.distance, .num e.rpe, e.type⟩

/-- A raw record with a non-numeric RHR field. -/
def badRaw : RawEntry := ⟨0, .text "oops", .num 1, .num 1, "Jog"⟩

/-- A concrete sorted two-entry log used to refute the partial-window
reading of the rolling statistics. -/
def c1log : List Entry := [⟨0, 45, 10, 5, "Jog"⟩, ⟨1, 46, 10, 5, "Jog"⟩]

/-- A concrete one-entry log for the C4 witness. -/
def c4log : List Entry := [⟨0, 45, 10, 5, "Jog"⟩]

/-- An annotated row with baseline mean 50 and variance 4 (std 2), used to
witness the one-sided RHR rule. -/
def c6row : AnnRow :=
  { date := 0, rhr := 50, distance := 0, rpe := 0, type := "Jog", load := 0,
    acute := none, chronic := none, acwr := 0, rhrMean := some 50, rhrVar := some 4 }

/-- Raw records with distinct dates, deliberately out of order, for the
permutation-invariance witness. -/
def c7a : RawEntry := ⟨1, .num 45, .num 10, .num 5, "Jog"⟩

def c7b : RawEntry := ⟨0, .num 44, .num 8, .num 4, "Rest"⟩

/-- A single well-formed entry for the short-log witness. -/
def c10e : Entry := ⟨0, 45, 10, 5, "Anaerobic"⟩

/-- The strict variant of the sort key, used to prove that sorting is
determined by the multiset of rows once dates are distinct. -/
def dateLt (a b : RawEntry) : Prop := a.date < b.date

instance : IsAntisymm RawEntry dateLt :=
  ⟨fun a b h1 h2 => absurd (Nat.lt_trans h1 h2) (Nat.lt_irrefl _)⟩

theorem length_annotate (es : List Entry) : (annotate es).length = es.length := by
  simp [annotate]

theorem annotate_getD (es : List Entry) (i : ℕ) (hi : i < es.length) :
    (annotate es).getD i default = annRow es i := by
  simp [annotate, List.getD_eq_getElem?_getD, List.getElem?_range hi]

theorem annotate_getLastD (es : List Entry) (hne : es ≠ []) :
    (annotate es).getLastD default = annRow es (es.length - 1) := by
  have hlen : 0 < es.length := List.length_pos.mpr hne
  have h1 : es.length - 1 < es.length := Nat.sub_lt hlen Nat.one_pos
  have h2 : (annotate es).length = es.length := length_annotate es
  rw [List.getLastD_eq_getLast?, List.getLast?_eq_getElem?, h2]
  simp [annotate, List.getElem?_range h1]

theorem mem_annotate {row : AnnRow} {es : List Entry} :
    row ∈ annotate es ↔ ∃ i, i < es.length ∧ annRow es i = row := by
  simp [annotate, List.mem_map, List.mem_range]

theorem annotate_map_date (es : List Entry) :
    (annotate es).map AnnRow.date = es.map Entry.date := by
  apply List.ext_getElem
  · simp [annotate]
  · intro i h1 h2
    have hi : i < es.length := by simpa [annotate] using h1
    simp [annotate, annRow, List.getD_eq_getElem?_getD, List.getElem?_eq_getElem hi]

theorem coerceEntry_lift (e : Entry) : coerceEntry (liftEntry e) = some e := rfl

theorem mapM_coerce_lift (es : List Entry) :
    (es.map liftEntry).mapM coerceEntry = some es := by
  rw [← List.mapM'_eq_mapM]
  induction es with
  | nil => rfl
  | cons e es ih =>
    rw [List.map_cons, List.mapM'_cons]
    rw [coerceEntry_lift, ih]
    rfl

theorem coerceEntry_fields {e : RawEntry} {b : Entry} (h : coerceEntry e = some b) :
    b.date = e.date ∧ b.type = e.type := by
  unfold coerceEntry at h
  split at h
  · cases h; exact ⟨rfl, rfl⟩
  · cases h

theorem mapM_coerce_length {l : List RawEntry} {es : List Entry}
    (h : l.mapM coerceEntry = some es) : es.length = l.length := by
  induction l generalizing es with
  | nil => simp only [List.mapM_nil] at h; cases h; rfl
  | cons a l ih =>
    rw [List.mapM_cons] at h
    cases ha : coerceEntry a with
    | none => rw [ha] at h; simp at h
    | some b =>
      rw [ha] at h
      cases hl : l.mapM coerceEntry with
      | none => rw [hl] at h; simp at h
      | some bs =>
        rw [hl] at h
        simp only [Option.bind_some, Option.pure_def, Option.some.injEq] at h
        cases h
        simp [ih hl]

theorem mapM_coerce_dates {l : List RawEntry} {es : List Entry}
    (h : l.mapM coerceEntry = some es) :
    es.map Entry.date = l.map RawEntry.date := by
  induction l generalizing es with
  | nil => simp only [List.mapM_nil] at h; cases h; rfl
  | cons a l ih =>
    rw [List.mapM_cons] at h
    cases ha : coerceEntry a with
    | none => rw [ha] at h; simp at h
    | some b =>
      rw [ha] at h
      cases hl : l.mapM coerceEntry with
      | none => rw [hl] at h; simp at h
      | some bs =>
        rw [hl] at h
        simp only [Option.bind_some, Option.pure_def, Option.some.injEq] at h
        cases h
        simp [ih hl, (coerceEntry_fields ha).1]

theorem mapM_coerce_none {l : List RawEntry} {e : RawEntry}
    (he : e ∈ l) (hbad : coerceEntry e = none) : l.mapM coerceEntry = none := by
  rw [← List.mapM'_eq_mapM]
  induction l with
  | nil => cases he
  | cons a l ih =>
    rw [List.mapM'_cons]
    rcases List.mem_cons.mp he with rfl | hmem
    · rw [hbad]; rfl
    · cases ha : coerceEntry a <;> simp [ha, ih hmem]

theorem sorted_lt_of_sorted_le {l : List RawEntry}
    (hs : List.Sorted dateLe l) (hd : (l.map RawEntry.date).Nodup) :
    List.Sorted dateLt l := by
  have hne : l.Pairwise fun a b : RawEntry => a.date ≠ b.date :=
    List.pairwise_map.mp hd
  exact (hs.and hne).imp fun h => Nat.lt_of_le_of_ne h.1 h.2

theorem sort_eq_of_perm {l1 l2 : List RawEntry} (hp : List.Perm l1 l2)
    (hd : (l1.map RawEntry.date).Nodup) :
    List.insertionSort dateLe l1 = List.insertionSort dateLe l2 := by
  have hs1 := List.sorted_insertionSort dateLe l1
  have hs2 := List.sorted_insertionSort dateLe l2
  have hp1 : List.Perm (List.insertionSort dateLe l1) l1 :=
    List.perm_insertionSort dateLe l1
  have hp2 : List.Perm (List.insertionSort dateLe l2) l2 :=
    List.perm_insertionSort dateLe l2
  have hd2 : (l2.map RawEntry.date).Nodup := ((hp.map RawEntry.date).nodup_iff).mp hd
  have hd1s : ((List.insertionSort dateLe l1).map RawEntry.date).Nodup :=
    ((hp1.map RawEntry.date).nodup_iff).mpr hd
  have hd2s : ((List.insertionSort dateLe l2).map RawEntry.date).Nodup :=
    ((hp2.map RawEntry.date).nodup_iff).mpr hd2
  exact List.eq_of_perm_of_sorted (hp1.trans (hp.trans hp2.symm))
    (sorted_lt_of_sorted_le hs1 hd1s) (sorted_lt_of_sorted_le hs2 hd2s)

theorem rhrRule_fst_bounds (row : AnnRow) (today : ℚ) :
    0 ≤ (rhrRule row today).1 ∧ (rhrRule row today).1 ≤ 40 := by
  unfold rhrRule
  repeat' split
  all_goals simp

theorem acwrRule_fst_bounds (a : ℚ) :
    0 ≤ (acwrRule a).1 ∧ (acwrRule a).1 ≤ 30 := by
  unfold acwrRule
  repeat' split
  all_goals simp

theorem cnsRule_fst_bounds (t : String) :
    0 ≤ (cnsRule t).1 ∧ (cnsRule t).1 ≤ 10 := by
  unfold cnsRule
  split
  all_goals simp

theorem scorePass_fst_bounds (es : List Entry) (today : ℚ) :
    20 ≤ (scorePass es today).1 ∧ (scorePass es today).1 ≤ 100 := by
  have h1 := rhrRule_fst_bounds ((annotate es).getLastD default) today
  have h2 := acwrRule_fst_bounds ((annotate es).getLastD default).acwr
  have h3 := cnsRule_fst_bounds ((annotate es).getLastD default).type
  unfold scorePass
  dsimp only
  constructor <;> omega

theorem scorePass_status (es : List Entry) (r : ℚ) :
    (scorePass es r).2.1 = statusOf (scorePass es r).1 := rfl

theorem analyze_ok_cases {df : List RawEntry} {r : ℚ} {out : Result}
    (hok : analyze_condition df r = .ok out) :
    (df = [] ∧ out = (100, "GREEN", ["データがありません"], []))
    ∨ ∃ es, (List.insertionSort dateLe df).mapM coerceEntry = some es
        ∧ out = scorePass es r := by
  unfold analyze_condition at hok
  split at hok
  · left
    refine ⟨List.isEmpty_iff.mp (by assumption), ?_⟩
    cases hok; rfl
  · right
    split at hok
    · cases hok
    · next es h => exact ⟨es, h, by cases hok; rfl⟩

theorem statusOf_eq_red_iff (s : ℤ) : statusOf s = "RED" ↔ s < 50 := by
  unfold statusOf
  by_cases h1 : s < 50
  · simp [h1]
  · by_cases h2 : s < 80 <;> simp [h1, h2]

theorem statusOf_eq_yellow_iff (s : ℤ) : statusOf s = "YELLOW" ↔ 50 ≤ s ∧ s < 80 := by
  unfold statusOf
  by_cases h1 : s < 50
  · simp [h1]
  · by_cases h2 : s < 80 <;> simp [h1, h2] <;> omega

theorem statusOf_eq_green_iff (s : ℤ) : statusOf s = "GREEN" ↔ 80 ≤ s := by
  unfold statusOf
  by_cases h1 : s < 50
  · simp [h1]
    omega
  · by_cases h2 : s < 80 <;> simp [h1, h2] <;> omega

theorem zAbove_iff_sqrt {t m v c : ℚ} (hv : 0 < v) (hc : 0 < c) :
    zAbove t m v c = true ↔ (c : ℝ) < ((t : ℝ) - (m : ℝ)) / Real.sqrt (v : ℝ) := by
  have hvR : (0 : ℝ) < (v : ℝ) := by exact_mod_cast hv
  have hcR : (0 : ℝ) < (c : ℝ) := by exact_mod_cast hc
  have hs : 0 < Real.sqrt (v : ℝ) := Real.sqrt_pos.mpr hvR
  rw [lt_div_iff hs]
  unfold zAbove
  rw [decide_eq_true_eq]
  constructor
  · rintro ⟨h1, h2⟩
    have h1R : (0 : ℝ) < (t : ℝ) - (m : ℝ) := by exact_mod_cast h1
    have h2R : ((c : ℝ)) ^ 2 * (v : ℝ) < ((t : ℝ) - (m : ℝ)) ^ 2 := by exact_mod_cast h2
    have hsq : ((c : ℝ) * Real.sqrt (v : ℝ)) ^ 2 < ((t : ℝ) - (m : ℝ)) ^ 2 := by
      rw [mul_pow, Real.sq_sqrt hvR.le]
      exact h2R
    exact lt_of_pow_lt_pow_left 2 h1R.le hsq
  · intro h
    have hpos : (0 : ℝ) < (c : ℝ) * Real.sqrt (v : ℝ) := mul_pos hcR hs
    have h1R : (0 : ℝ) < (t : ℝ) - (m : ℝ) := lt_trans hpos h
    have hsq : ((c : ℝ) * Real.sqrt (v : ℝ)) ^ 2 < ((t : ℝ) - (m : ℝ)) ^ 2 :=
      pow_lt_pow_left h hpos.le (by norm_num)
    rw [mul_pow, Real.sq_sqrt hvR.le] at hsq
    constructor
    · exact_mod_cast h1R
    · exact_mod_cast hsq

theorem rhrRule_var_none {row : AnnRow} (today : ℚ) (h : row.rhrVar = none) :
    rhrRule row today = (0, []) := by
  unfold rhrRule
  rw [h]

theorem rhrRule_mean_none {row : AnnRow} (today : ℚ) (h : row.rhrMean = none) :
    rhrRule row today = (0, []) := by
  unfold rhrRule
  rw [h]
  cases row.rhrVar <;> rfl

theorem rhrRule_var_nonpos {row : AnnRow} (today : ℚ) {v m : ℚ}
    (hv : row.rhrVar = some v) (hm : row.rhrMean = some m) (hle : v ≤ 0) :
    rhrRule row today = (0, []) := by
  simp only [rhrRule, hv, hm]
  rw [if_neg (not_lt.mpr hle)]

theorem rhrRule_var_pos {row : AnnRow} (today : ℚ) {v m : ℚ}
    (hv : row.rhrVar = some v) (hm : row.rhrMean = some m) (hpos : 0 < v) :
    rhrRule row today =
      (if zAbove today m v 2 then (40, ["⛔ 心拍異常 (+2σ): " ++ toString today])
       else if zAbove today m v 1 then (20, ["⚠️ 心拍高め (+1σ): " ++ toString today])
       else (0, [])) := by
  simp only [rhrRule, hv, hm]
  rw [if_pos hpos]

theorem acwrOf_chronic_none (ac : Option ℚ) : acwrOf ac none = 0 := rfl

theorem acwrOf_chronic_nonpos (ac : Option ℚ) {c : ℚ} (h : c ≤ 0) :
    acwrOf ac (some c) = 0 := by
  simp only [acwrOf]
  rw [if_neg (not_lt.mpr h)]

theorem acwrRule_zero : acwrRule 0 = (0, []) := by
  unfold acwrRule
  norm_num

theorem rollingMean_of_short {w : ℕ} (l : List ℚ) {i : ℕ} (h : i + 1 < w) :
    rollingMean w l i = none := by
  unfold rollingMean
  rw [if_neg (by omega)]

theorem rollingVar_of_short {w : ℕ} (l : List ℚ) {i : ℕ} (h : i + 1 < w) :
    rollingVar w l i = none := by
  unfold rollingVar
  rw [if_neg (by omega)]

theorem annRow_type (es : List Entry) (i : ℕ) :
    (annRow es i).type = (es.getD i default).type := rfl

theorem annRow_chronic (es : List Entry) (i : ℕ) :
    (annRow es i).chronic = rollingMean 28 (es.map fun x => x.distance * x.rpe) i := rfl

theorem annRow_acute (es : List Entry) (i : ℕ) :
    (annRow es i).acute = rollingMean 7 (es.map fun x => x.distance * x.rpe) i := rfl

theorem annRow_acwr (es : List Entry) (i : ℕ) :
    (annRow es i).acwr =
      acwrOf (rollingMean 7 (es.map fun x => x.distance * x.rpe) i)
        (rollingMean 28 (es.map fun x => x.distance * x.rpe) i) := rfl

theorem annRow_rhrMean (es : List Entry) (i : ℕ) :
    (annRow es i).rhrMean = rollingMean 30 (es.map fun x => x.rhr) i := rfl

theorem annRow_rhrVar (es : List Entry) (i : ℕ) :
    (annRow es i).rhrVar = rollingVar 30 (es.map fun x => x.rhr) i := rfl

theorem getLast_eq_getD {α : Type} [Inhabited α] (l : List α) (h : l ≠ []) :
    l.getLast h = l.getD (l.length - 1) default := by
  have hlt : l.length - 1 < l.length := Nat.sub_lt (List.length_pos.mpr h) Nat.one_pos
  rw [List.getLast_eq_getElem, List.getD_eq_getElem?_getD, List.getElem?_eq_getElem hlt]
  rfl

/-- C2: For every todayRhr, the analyzer on an empty log returns score 100,
status GREEN, exactly one informational warning, and the empty log
unchanged; no penalty rule is evaluated. -/
theorem C2_empty_log (r : ℚ) :
    analyze_condition [] r = .ok (100, "GREEN", ["データがありません"], []) := rfl

/-- C9: The analyzer is a pure function of its two inputs with no hidden
state: two calls with the same log and todayRhr return identical scores,
statuses, warning lists and annotated logs. -/
theorem C9_deterministic (df : List RawEntry) (r : ℚ) :
    analyze_condition df r = analyze_condition df r := rfl

/-- C3 counterexample: the claim asserts the returned score is negative
for some well-formed input; in fact every returned score is at least 20,
because the three penalty rules deduct at most 40 + 30 + 10 = 80 points. -/
theorem C3_counterexample :
    ¬ ∃ (df : List RawEntry) (r : ℚ) (out : Result),
        analyze_condition df r = .ok out ∧ out.1 < 0 := by
  rintro ⟨df, r, out, hok, hneg⟩
  rcases analyze_ok_cases hok with ⟨_, rfl⟩ | ⟨es, _, rfl⟩
  · simp at hneg
  · have := scorePass_fst_bounds es r
    omega

/-- C3 amended: the score starts at 100 and is only decremented by the
additive penalties, and the code enforces no explicit floor, but the total
deduction is bounded by 80, so every returned score lies in [20, 100] and
is never negative. -/
theorem C3_score_range {df : List RawEntry} {r : ℚ} {out : Result}
    (hok : analyze_condition df r = .ok out) :
    20 ≤ out.1 ∧ out.1 ≤ 100 := by
  rcases analyze_ok_cases hok with ⟨_, rfl⟩ | ⟨es, _, rfl⟩
  · exact ⟨by norm_num, by norm_num⟩
  · exact scorePass_fst_bounds es r

/-- Witness for C3_score_range at the empty log. -/
theorem C3_score_range_witness :
    analyze_condition [] 42 = .ok (100, "GREEN", ["データがありません"], [])
    ∧ 20 ≤ (100 : ℤ) ∧ (100 : ℤ) ≤ 100 :=
  ⟨rfl, @C3_score_range [] 42 (100, "GREEN", ["データがありません"], []) rfl⟩

/-- C5: after all penalties are applied, the status is RED exactly when
score < 50, YELLOW exactly when 50 ≤ score < 80, GREEN exactly when
score ≥ 80; at the boundaries 49 maps to RED, 50 and 79 to YELLOW and 80
to GREEN. -/
theorem C5_status_bands {df : List RawEntry} {r : ℚ} {out : Result}
    (hok : analyze_condition df r = .ok out) :
    (out.2.1 = "RED" ↔ out.1 < 50)
    ∧ (out.2.1 = "YELLOW" ↔ 50 ≤ out.1 ∧ out.1 < 80)
    ∧ (out.2.1 = "GREEN" ↔ 80 ≤ out.1)
    ∧ statusOf 49 = "RED" ∧ statusOf 50 = "YELLOW"
    ∧ statusOf 79 = "YELLOW" ∧ statusOf 80 = "GREEN" := by
  have hst : out.2.1 = statusOf out.1 := by
    rcases analyze_ok_cases hok with ⟨_, rfl⟩ | ⟨es, _, rfl⟩
    · rfl
    · rfl
  rw [hst]
  exact ⟨statusOf_eq_red_iff _, statusOf_eq_yellow_iff _, statusOf_eq_green_iff _,
    rfl, rfl, rfl, rfl⟩

/-- Witness for C5_status_bands at the empty log. -/
theorem C5_status_bands_witness :
    analyze_condition [] 42 = .ok (100, "GREEN", ["データがありません"], [])
    ∧ (("GREEN" = "RED" ↔ (100 : ℤ) < 50)
       ∧ ("GREEN" = "YELLOW" ↔ 50 ≤ (100 : ℤ) ∧ (100 : ℤ) < 80)
       ∧ ("GREEN" = "GREEN" ↔ 80 ≤ (100 : ℤ))
       ∧ statusOf 49 = "RED" ∧ statusOf 50 = "YELLOW"
       ∧ statusOf 79 = "YELLOW" ∧ statusOf 80 = "GREEN") :=
  ⟨rfl, @C5_status_bands [] 42 (100, "GREEN", ["データがありません"], []) rfl⟩

/-- C8: a non-empty log containing an entry whose RHR, Distance or RPE
field cannot be coerced to a number makes the whole analysis call fail at
the coercion step; the malformed value is never treated as zero and the
entry is never skipped. -/
theorem C8_malformed_fails {df : List RawEntry} (r : ℚ) {e : RawEntry}
    (he : e ∈ df) (hbad : coerceEntry e = none) :
    analyze_condition df r = .error "to_numeric: unable to parse string" := by
  have hne : df ≠ [] := by rintro rfl; cases he
  have hmem : e ∈ List.insertionSort dateLe df := by
    rw [List.mem_insertionSort]
    exact he
  have hnone : (List.insertionSort dateLe df).mapM coerceEntry = none :=
    mapM_coerce_none hmem hbad
  unfold analyze_condition
  rw [if_neg (fun h => hne (List.isEmpty_iff.mp h))]
  rw [hnone]


/-- Witness for C8_malformed_fails on a one-entry log. -/
theorem C8_malformed_fails_witness :
    badRaw ∈ [badRaw] ∧ coerceEntry badRaw = none
    ∧ analyze_condition [badRaw] 42 = .error "to_numeric: unable to parse string" :=
  ⟨List.mem_singleton.mpr rfl, rfl,
    C8_malformed_fails 42 (List.mem_singleton.mpr rfl) rfl⟩

/-- C4: whenever the chronic mean at an entry of the annotated log is 0 or
undefined, that entry's ACWR is 0 (never an error, infinity or NaN); in
particular ACWR is 0 at every entry of a log with fewer than 28 entries,
and of a log whose loads are all zero. -/
theorem C4_acwr_guard {es : List Entry} {row : AnnRow} (hrow : row ∈ annotate es) :
    ((row.chronic = none ∨ row.chronic = some 0) → row.acwr = 0)
    ∧ (es.length < 28 → row.acwr = 0)
    ∧ ((∀ e ∈ es, e.distance * e.rpe = 0) → row.acwr = 0) := by
  rcases mem_annotate.mp hrow with ⟨i, hi, rfl⟩
  refine ⟨?_, ?_, ?_⟩
  · intro h
    rw [annRow_acwr]
    rw [annRow_chronic] at h
    rcases h with h | h
    · rw [h]
      exact acwrOf_chronic_none _
    · rw [h]
      exact acwrOf_chronic_nonpos _ le_rfl
  · intro hlen
    rw [annRow_acwr]
    have hn : rollingMean 28 (es.map fun x => x.distance * x.rpe) i = none :=
      rollingMean_of_short _ (by omega)
    rw [hn]
    exact acwrOf_chronic_none _
  · intro hz
    rw [annRow_acwr]
    cases hch : rollingMean 28 (es.map fun x => x.distance * x.rpe) i with
    | none => exact acwrOf_chronic_none _
    | some c =>
      have hc0 : c = 0 := by
        unfold rollingMean at hch
        split at hch
        · cases hch
          have hzl : ∀ x ∈ windowAt (es.map fun e => e.distance * e.rpe) 28 i, x = 0 := by
            intro x hx
            have hx1 : x ∈ (es.map fun e => e.distance * e.rpe).take (i + 1) :=
              List.mem_of_mem_drop hx
            have hx2 : x ∈ es.map fun e => e.distance * e.rpe :=
              List.mem_of_mem_take hx1
            rcases List.mem_map.mp hx2 with ⟨e, he, rfl⟩
            exact hz e he
          unfold mean
          rw [List.sum_eq_zero hzl, zero_div]
        · cases hch
      rw [hc0]
      exact acwrOf_chronic_nonpos _ le_rfl


/-- C1 counterexample: on a sorted two-entry log the claim predicts the
acute mean at position 1 to be the mean of the two available loads
(a partial window) and the rolling std to be defined there (two points);
pandas `rolling(w)` defaults to `min_periods = w`, so the code leaves
both undefined (NaN). -/
theorem C1_counterexample :
    ((annotate c1log).map AnnRow.acute = [none, none])
    ∧ ((annotate c1log).map AnnRow.rhrVar = [none, none])
    ∧ ((annotate c1log).getD 1 default).acute ≠ some (mean [50, 50]) := by
  refine ⟨?_, ?_, ?_⟩ <;> decide

/-- C1 amended: the rolling statistics at position i are taken over the
trailing window of entries [i-w+1 .. i], but are defined only when that
window is full (i ≥ w-1): for i < w-1 the mean is undefined (NaN) rather
than a mean of the fewer available points, and the rolling standard
deviation is defined only for a full 30-entry window, not whenever at
least 2 points are available. -/
theorem C1_full_window_only (es : List Entry) (i : ℕ) (hi : i < es.length) :
    ((annotate es).getD i default).acute
      = (if 6 ≤ i then some (mean (windowAt (es.map fun x => x.distance * x.rpe) 7 i))
         else none)
    ∧ ((annotate es).getD i default).chronic
      = (if 27 ≤ i then some (mean (windowAt (es.map fun x => x.distance * x.rpe) 28 i))
         else none)
    ∧ ((annotate es).getD i default).rhrVar
      = (if 29 ≤ i then some (svar (windowAt (es.map fun x => x.rhr) 30 i))
         else none)
    ∧ (6 ≤ i → (windowAt (es.map fun x => x.distance * x.rpe) 7 i).length = 7)
    ∧ (29 ≤ i → (windowAt (es.map fun x => x.rhr) 30 i).length = 30) := by
  rw [annotate_getD es i hi]
  refine ⟨?_, ?_, ?_, ?_, ?_⟩
  · rw [annRow_acute]
    unfold rollingMean
    by_cases h : 6 ≤ i
    · rw [if_pos (by omega), if_pos h]
    · rw [if_neg (by omega), if_neg h]
  · rw [annRow_chronic]
    unfold rollingMean
    by_cases h : 27 ≤ i
    · rw [if_pos (by omega), if_pos h]
    · rw [if_neg (by omega), if_neg h]
  · rw [annRow_rhrVar]
    unfold rollingVar
    by_cases h : 29 ≤ i
    · rw [if_pos (by omega), if_pos h]
    · rw [if_neg (by omega), if_neg h]
  · intro h
    unfold windowAt
    rw [List.length_drop, List.length_take]
    have hl : (es.map fun x => x.distance * x.rpe).length = es.length :=
      List.length_map _ _
    omega
  · intro h
    unfold windowAt
    rw [List.length_drop, List.length_take]
    have hl : (es.map fun x => x.rhr).length = es.length :=
      List.length_map _ _
    omega

/-- Witness for C1_full_window_only at position 1 of the two-entry log. -/
theorem C1_full_window_only_witness :
    1 < c1log.length
    ∧ (((annotate c1log).getD 1 default).acute
        = (if 6 ≤ 1 then some (mean (windowAt (c1log.map fun x => x.distance * x.rpe) 7 1))
           else none)
       ∧ ((annotate c1log).getD 1 default).chronic
        = (if 27 ≤ 1 then some (mean (windowAt (c1log.map fun x => x.distance * x.rpe) 28 1))
           else none)
       ∧ ((annotate c1log).getD 1 default).rhrVar
        = (if 29 ≤ 1 then some (svar (windowAt (c1log.map fun x => x.rhr) 30 1))
           else none)
       ∧ (6 ≤ 1 → (windowAt (c1log.map fun x => x.distance * x.rpe) 7 1).length = 7)
       ∧ (29 ≤ 1 → (windowAt (c1log.map fun x => x.rhr) 30 1).length = 30)) :=
  ⟨by decide, C1_full_window_only c1log 1 (by decide)⟩


/-- Witness for C4_acwr_guard: the single entry of a one-entry log has
ACWR 0. -/
theorem C4_acwr_guard_witness :
    annRow c4log 0 ∈ annotate c4log
    ∧ c4log.length < 28 ∧ (annRow c4log 0).acwr = 0 := by
  have hmem : annRow c4log 0 ∈ annotate c4log := by
    rw [mem_annotate]
    exact ⟨0, by decide, rfl⟩
  exact ⟨hmem, by decide, (C4_acwr_guard hmem).2.1 (by decide)⟩

/-- C6: the RHR rule is evaluated only when the row's baseline std is
defined and positive, and is one-sided: todayRhr = M - 3S (indeed any
z ≤ 1) triggers no penalty; when it is evaluated, exactly one of the two
penalties fires — z > 2 deducts 40 with the severe warning, else
1 < z ≤ 2 deducts 20 with the elevated warning — and low or negative z
triggers neither. -/
theorem C6_rhr_one_sided (row : AnnRow) (today : ℚ) :
    (row.rhrVar = none → rhrRule row today = (0, []))
    ∧ (∀ v : ℚ, row.rhrVar = some v → v ≤ 0 → rhrRule row today = (0, []))
    ∧ (∀ v m : ℚ, row.rhrVar = some v → row.rhrMean = some m → 0 < v →
        (((today : ℝ) = (m : ℝ) - 3 * Real.sqrt (v : ℝ) →
            rhrRule row today = (0, []))
         ∧ (((today : ℝ) - (m : ℝ)) / Real.sqrt (v : ℝ) ≤ 1 →
            rhrRule row today = (0, []))
         ∧ (2 < ((today : ℝ) - (m : ℝ)) / Real.sqrt (v : ℝ) →
            rhrRule row today = (40, ["⛔ 心拍異常 (+2σ): " ++ toString today]))
         ∧ (1 < ((today : ℝ) - (m : ℝ)) / Real.sqrt (v : ℝ) →
            ((today : ℝ) - (m : ℝ)) / Real.sqrt (v : ℝ) ≤ 2 →
            rhrRule row today = (20, ["⚠️ 心拍高め (+1σ): " ++ toString today])))) := by
  refine ⟨fun h => rhrRule_var_none today h, ?_, ?_⟩
  · intro v hv hle
    cases hm : row.rhrMean with
    | none => exact rhrRule_mean_none today hm
    | some m => exact rhrRule_var_nonpos today hv hm hle
  · intro v m hv hm hpos
    have hvR : (0 : ℝ) < (v : ℝ) := by exact_mod_cast hpos
    have hs : 0 < Real.sqrt (v : ℝ) := Real.sqrt_pos.mpr hvR
    have heq := rhrRule_var_pos today hv hm hpos
    have h2 : zAbove today m v 2 = true ↔
        (2 : ℝ) < ((today : ℝ) - (m : ℝ)) / Real.sqrt (v : ℝ) := by
      rw [zAbove_iff_sqrt hpos (by norm_num : (0:ℚ) < 2)]
      norm_num
    have h1 : zAbove today m v 1 = true ↔
        (1 : ℝ) < ((today : ℝ) - (m : ℝ)) / Real.sqrt (v : ℝ) := by
      rw [zAbove_iff_sqrt hpos (by norm_num : (0:ℚ) < 1)]
      norm_num
    have noPen : ((today : ℝ) - (m : ℝ)) / Real.sqrt (v : ℝ) ≤ 1 →
        rhrRule row today = (0, []) := by
      intro hz
      rw [heq, if_neg, if_neg]
      · rw [h1]; linarith
      · rw [h2]; linarith
    refine ⟨?_, noPen, ?_, ?_⟩
    · intro htoday
      apply noPen
      have hnum : (today : ℝ) - (m : ℝ) = -3 * Real.sqrt (v : ℝ) := by
        rw [htoday]; ring
      rw [hnum, mul_div_assoc, div_self hs.ne']
      norm_num
    · intro hz
      rw [heq, if_pos (h2.mpr hz)]
    · intro hz1 hz2
      rw [heq, if_neg, if_pos (h1.mpr hz1)]
      rw [h2]; linarith

/-- Witness for C6_rhr_one_sided: baseline mean 50, std 2, today 44 =
50 - 3*2 triggers no penalty. -/
theorem C6_rhr_one_sided_witness :
    c6row.rhrVar = some 4 ∧ c6row.rhrMean = some 50 ∧ (0 : ℚ) < 4
    ∧ (((44 : ℚ) : ℝ) = ((50 : ℚ) : ℝ) - 3 * Real.sqrt ((4 : ℚ) : ℝ))
    ∧ rhrRule c6row 44 = (0, []) := by
  have hsq : Real.sqrt ((4 : ℚ) : ℝ) = 2 := by
    rw [show (((4 : ℚ)) : ℝ) = (2 : ℝ) ^ 2 by norm_num,
      Real.sqrt_sq (by norm_num : (0:ℝ) ≤ 2)]
  have heq : ((44 : ℚ) : ℝ) = ((50 : ℚ) : ℝ) - 3 * Real.sqrt ((4 : ℚ) : ℝ) := by
    rw [hsq]; norm_num
  exact ⟨rfl, rfl, by norm_num, heq,
    ((C6_rhr_one_sided c6row 44).2.2 4 50 rfl rfl (by norm_num)).1 heq⟩

/-- C7: the analyzer establishes date order itself — on logs with
pairwise-distinct dates, any permutation of the same entries yields the
same score, status, warnings and annotated log, and a successful analysis
returns the annotated log sorted by date ascending with one fully derived
row per input entry. -/
theorem C7_order_insensitive {l1 l2 : List RawEntry} (r : ℚ)
    (hp : List.Perm l1 l2) (hd : (l1.map RawEntry.date).Nodup) :
    analyze_condition l1 r = analyze_condition l2 r
    ∧ ∀ out : Result, analyze_condition l1 r = .ok out →
        List.Sorted (fun a b : AnnRow => a.date ≤ b.date) out.2.2.2
        ∧ out.2.2.2.length = l1.length := by
  have hsort : List.insertionSort dateLe l1 = List.insertionSort dateLe l2 :=
    sort_eq_of_perm hp hd
  have hlen12 := hp.length_eq
  have hemp : l1.isEmpty = l2.isEmpty := by
    cases l1 <;> cases l2 <;> simp_all
  constructor
  · unfold analyze_condition
    rw [hemp, hsort]
  · intro out hok
    rcases analyze_ok_cases hok with ⟨h1, rfl⟩ | ⟨es, hc, rfl⟩
    · subst h1
      exact ⟨List.sorted_nil, rfl⟩
    · have hss : List.Sorted dateLe (List.insertionSort dateLe l1) :=
        List.sorted_insertionSort dateLe l1
      have hpair : ((annotate es).map AnnRow.date).Pairwise (· ≤ ·) := by
        rw [annotate_map_date, mapM_coerce_dates hc]
        exact List.pairwise_map.mpr hss
      refine ⟨List.pairwise_map.mp hpair, ?_⟩
      show (annotate es).length = l1.length
      rw [length_annotate, mapM_coerce_length hc,
        (List.perm_insertionSort dateLe l1).length_eq]

/-- Witness for C7_order_insensitive on a two-entry log given in reversed
date order. -/
theorem C7_order_insensitive_witness :
    List.Perm [c7a, c7b] [c7b, c7a]
    ∧ (([c7a, c7b].map RawEntry.date).Nodup)
    ∧ analyze_condition [c7a, c7b] 42 = analyze_condition [c7b, c7a] 42 := by
  have hp : List.Perm [c7a, c7b] [c7b, c7a] := List.Perm.swap c7b c7a []
  have hd : (([c7a, c7b].map RawEntry.date)).Nodup := by decide
  exact ⟨hp, hd, (C7_order_insensitive 42 hp hd).1⟩

/-- C10: for a non-empty log of fewer than 28 fully numeric entries, the
chronic mean and the RHR baseline std at the last entry are undefined, so
neither the RHR rule nor the ACWR rule can fire; the score is exactly 100
when the last session type is not Anaerobic and exactly 90 when it is,
with status GREEN either way. -/
theorem C10_short_log {df : List RawEntry} {es : List Entry} (r : ℚ)
    (hne : es ≠ []) (hlen : df.length < 28)
    (hc : (List.insertionSort dateLe df).mapM coerceEntry = some es) :
    (annRow es (es.length - 1)).chronic = none
    ∧ (annRow es (es.length - 1)).rhrVar = none
    ∧ analyze_condition df r =
        .ok ((if (es.getLast hne).type = "Anaerobic" then 90 else 100),
             "GREEN",
             (if (es.getLast hne).type = "Anaerobic"
              then ["💡 CNS回復: 昨日は解糖系でした。ジョグ推奨。"] else []),
             annotate es) := by
  have hlen2 : es.length = df.length := by
    rw [mapM_coerce_length hc, (List.perm_insertionSort dateLe df).length_eq]
  have hpos : 0 < es.length := List.length_pos.mpr hne
  have hchr : (annRow es (es.length - 1)).chronic = none := by
    rw [annRow_chronic]
    exact rollingMean_of_short _ (by omega)
  have hvar : (annRow es (es.length - 1)).rhrVar = none := by
    rw [annRow_rhrVar]
    exact rollingVar_of_short _ (by omega)
  refine ⟨hchr, hvar, ?_⟩
  have hdne : df ≠ [] := by
    intro h
    subst h
    simp only [List.length_nil] at hlen2
    omega
  have hlast := annotate_getLastD es hne
  have hrhr : rhrRule ((annotate es).getLastD default) r = (0, []) := by
    rw [hlast]
    exact rhrRule_var_none r hvar
  have hacwr : ((annotate es).getLastD default).acwr = 0 := by
    rw [hlast, annRow_acwr, ← annRow_chronic, hchr]
    exact acwrOf_chronic_none _
  have htype : ((annotate es).getLastD default).type = (es.getLast hne).type := by
    rw [hlast, annRow_type, getLast_eq_getD es hne]
  unfold analyze_condition
  rw [if_neg (fun h => hdne (List.isEmpty_iff.mp h))]
  rw [hc]
  show Except.ok (scorePass es r) = _
  unfold scorePass
  dsimp only
  rw [hrhr, hacwr, htype, acwrRule_zero]
  by_cases ht : (es.getLast hne).type = "Anaerobic"
  · rw [ht]
    simp [cnsRule, statusOf]
  · rw [cnsRule, if_neg ht]
    simp [statusOf, ht]

/-- Witness for C10_short_log on a one-entry Anaerobic log: score 90,
status GREEN. -/
theorem C10_short_log_witness :
    ([c10e] : List Entry) ≠ []
    ∧ ([liftEntry c10e] : List RawEntry).length < 28
    ∧ (List.insertionSort dateLe [liftEntry c10e]).mapM coerceEntry = some [c10e]
    ∧ (annRow [c10e] ([c10e].length - 1)).chronic = none
    ∧ (annRow [c10e] ([c10e].length - 1)).rhrVar = none
    ∧ analyze_condition [liftEntry c10e] 42 =
        .ok ((if (([c10e] : List Entry).getLast (by decide)).type = "Anaerobic"
              then 90 else 100),
             "GREEN",
             (if (([c10e] : List Entry).getLast (by decide)).type = "Anaerobic"
              then ["💡 CNS回復: 昨日は解糖系でした。ジョグ推奨。"] else []),
             annotate [c10e]) := by
  have h1 : ([c10e] : List Entry) ≠ [] := by decide
  have h2 : ([liftEntry c10e] : List RawEntry).length < 28 := by decide
  have hc : (List.insertionSort dateLe [liftEntry c10e]).mapM coerceEntry
      = some [c10e] := by decide
  have hmain := C10_short_log 42 h1 h2 hc
  exact ⟨h1, h2, hc, hmain.1, hmain.2.1, hmain.2.2⟩

end RunMonitor
